import Mathlib

/-!
Verification of the synchronization core of the fastotv player.

Shallow embedding conventions:
* C `double` values are modelled as `ℚ` (every finite IEEE double is a
  rational; rounding is abstracted away).  A possibly-NaN double is
  modelled as `Option ℚ`, with `none` standing for NaN.
* C `int` / `int64_t` are modelled as `ℤ` (overflow out of scope).
* Integer division in C truncates toward zero, hence `Int.tdiv`.
* `static_cast<int>(double)` truncates toward zero, hence `ratTrunc`.

The embedded functions follow `src/video_state.cpp` and
`src/core/video_state.cpp`.
-/

namespace FastoTV

/-- Subtraction of possibly-NaN doubles: NaN propagates. -/
def osub : Option ℚ → Option ℚ → Option ℚ
  | some x, some y => some (x - y)
  | _, _ => none

/-- Model of C `static_cast<int>` applied to a double: truncation toward zero. -/
def ratTrunc (x : ℚ) : ℤ :=
  if 0 ≤ x then ⌊x⌋ else ⌈x⌉

/-- Model of FFmpeg `av_clip(a, amin, amax)`. -/
def avClip (a amin amax : ℤ) : ℤ :=
  if a < amin then amin else if a > amax then amax else a

/-- Sync types, from `AvSyncType` / the `AV_SYNC_*` constants used by
`src/core/video_state.cpp` (audio master is the default choice; the
external clock is carried by the subtitle stream engine). -/
inductive AvSyncType
  | audioMaster
  | videoMaster
  | externalClock
  deriving DecidableEq, Repr

open AvSyncType

/-- Embeds `VideoState::get_master_sync_type` from
`src/core/video_state.cpp` (lines 408-424): configured video master falls
back to the audio master when no video stream is open; configured audio
master falls back to the external clock when no audio stream is open. -/
def get_master_sync_type (cfg : AvSyncType) (videoOpen audioOpen : Bool) : AvSyncType :=
  if cfg = videoMaster then
    if videoOpen then videoMaster else audioMaster
  else if cfg = audioMaster then
    if audioOpen then audioMaster else externalClock
  else externalClock

/-- The master-sync selection as the spec sentence for claim C2 words it
(refinement reference, not code): `VIDEO_MASTER` if video master is
configured and a video stream is open; else `AUDIO_MASTER` if audio master
is configured and an audio stream is open; else `EXTERNAL_MASTER`. -/
def spec_master_sync_type (cfg : AvSyncType) (videoOpen audioOpen : Bool) : AvSyncType :=
  if cfg = videoMaster ∧ videoOpen then videoMaster
  else if cfg = audioMaster ∧ audioOpen then audioMaster
  else externalClock

/-- Embeds `VideoState::get_master_clock` from `src/core/video_state.cpp`:
dispatches on the selected master sync type. -/
def get_master_clock (cfg : AvSyncType) (videoOpen audioOpen : Bool)
    (vclk aclk eclk : Option ℚ) : Option ℚ :=
  match get_master_sync_type cfg videoOpen audioOpen with
  | videoMaster => vclk
  | audioMaster => aclk
  | externalClock => eclk

/-- Embeds `VideoState::compute_target_delay` from
`src/core/video_state.cpp` (lines 426-452); the same arithmetic appears as
`VideoState::ComputeTargetDelay` in `src/video_state.cpp` (lines 525-550).
Constants: `AV_SYNC_THRESHOLD_MIN = 0.04`, `AV_SYNC_THRESHOLD_MAX = 0.1`,
`AV_SYNC_FRAMEDUP_THRESHOLD = 0.1`. -/
def compute_target_delay (cfg : AvSyncType) (videoOpen audioOpen : Bool)
    (vclk aclk eclk : Option ℚ) (maxFrameDuration : ℚ) (delay : ℚ) : ℚ :=
  if get_master_sync_type cfg videoOpen audioOpen = videoMaster then delay
  else
    match osub vclk (get_master_clock cfg videoOpen audioOpen vclk aclk eclk) with
    | none => delay
    | some diff =>
      let sync_threshold := max 0.04 (min 0.1 delay)
      if |diff| < maxFrameDuration then
        if diff ≤ -sync_threshold then max 0 (delay + diff)
        else if diff ≥ sync_threshold ∧ delay > 0.1 then delay + diff
        else if diff ≥ sync_threshold then 2 * delay
        else delay
      else delay

/-- Mutable per-session synchronization state of `VideoState` (the fields
`compute_target_delay` may be given access to, plus unrelated mutable
fields such as `frame_timer`, used to express that the delay computation
does not read them). -/
structure PlayerState where
  cfgSyncType : AvSyncType
  videoOpen : Bool
  audioOpen : Bool
  videoClock : Option ℚ
  audioClock : Option ℚ
  extClock : Option ℚ
  maxFrameDuration : ℚ
  frameTimer : ℚ
  paused : Bool
  step : Bool
  forceRefresh : Bool
  frameDropsLate : ℕ
  deriving DecidableEq, Repr

/-- `compute_target_delay` as a method of the whole mutable state. -/
def PlayerState.computeTargetDelay (s : PlayerState) (delay : ℚ) : ℚ :=
  compute_target_delay s.cfgSyncType s.videoOpen s.audioOpen
    s.videoClock s.audioClock s.extClock s.maxFrameDuration delay

/-- C2, counterexample: with video master configured but no video stream
open (and no audio stream open either), `get_master_sync_type` returns
`AUDIO_MASTER` — the absent audio stream's clock — whereas the claim's
fallback chain prescribes `EXTERNAL_MASTER`. -/
theorem C2_master_sync_counterexample :
    get_master_sync_type AvSyncType.videoMaster false false = AvSyncType.audioMaster ∧
    spec_master_sync_type AvSyncType.videoMaster false false = AvSyncType.externalClock ∧
    get_master_sync_type AvSyncType.videoMaster false false ≠
      spec_master_sync_type AvSyncType.videoMaster false false := by
  decide

/-- C2, amended: `get_master_sync_type` returns `VIDEO_MASTER` if video
master is configured and a video stream is open; `AUDIO_MASTER` if video
master is configured but no video stream is open (regardless of whether an
audio stream is open) or if audio master is configured and an audio stream
is open; and `EXTERNAL_MASTER` if audio master is configured without an
open audio stream, or the external clock is configured. -/
theorem C2_master_sync_amended (cfg : AvSyncType) (v a : Bool) :
    (cfg = videoMaster ∧ v = true →
      get_master_sync_type cfg v a = videoMaster) ∧
    (cfg = videoMaster ∧ v = false →
      get_master_sync_type cfg v a = audioMaster) ∧
    (cfg = audioMaster ∧ a = true →
      get_master_sync_type cfg v a = audioMaster) ∧
    (cfg = audioMaster ∧ a = false →
      get_master_sync_type cfg v a = externalClock) ∧
    (cfg = externalClock →
      get_master_sync_type cfg v a = externalClock) := by
  cases cfg <;> cases v <;> cases a <;> exact (by decide)

/-- C2, witness for the amended theorem at a concrete input. -/
theorem C2_master_sync_amended_witness :
    get_master_sync_type AvSyncType.videoMaster true false = AvSyncType.videoMaster :=
  (C2_master_sync_amended AvSyncType.videoMaster true false).1 ⟨rfl, rfl⟩

/-- Helper shared by the `compute_target_delay` claims: full case
analysis of the delay correction when video is not the master and the
clock difference is defined and within `max_frame_duration`. -/
lemma ctd_cases (cfg : AvSyncType) (v a : Bool) (vclk aclk eclk : Option ℚ)
    (mfd d vc mc : ℚ)
    (hm : get_master_sync_type cfg v a ≠ videoMaster)
    (hv : vclk = some vc)
    (hmc : get_master_clock cfg v a vclk aclk eclk = some mc)
    (hfd : |vc - mc| < mfd) :
    (vc - mc ≤ -(max 0.04 (min 0.1 d)) →
      compute_target_delay cfg v a vclk aclk eclk mfd d = max 0 (d + (vc - mc))) ∧
    (vc - mc ≥ max 0.04 (min 0.1 d) ∧ d > 0.1 →
      compute_target_delay cfg v a vclk aclk eclk mfd d = d + (vc - mc)) ∧
    (vc - mc ≥ max 0.04 (min 0.1 d) ∧ d ≤ 0.1 →
      compute_target_delay cfg v a vclk aclk eclk mfd d = 2 * d) ∧
    (-(max 0.04 (min 0.1 d)) < vc - mc ∧ vc - mc < max 0.04 (min 0.1 d) →
      compute_target_delay cfg v a vclk aclk eclk mfd d = d) := by
  have hst : (0.04 : ℚ) ≤ max 0.04 (min 0.1 d) := le_max_left _ _
  unfold compute_target_delay
  rw [if_neg hm, hmc, hv]
  simp only [osub]
  refine ⟨?_, ?_, ?_, ?_⟩ <;> intro h
  · rw [if_pos hfd, if_pos h]
  · rw [if_pos hfd, if_neg (by intro hc; linarith [h.1]), if_pos h]
  · rw [if_pos hfd, if_neg (by intro hc; linarith [h.1]),
      if_neg (by intro hc; linarith [h.2, hc.2]), if_pos h.1]
  · rw [if_pos hfd, if_neg (by intro hc; linarith [h.1]),
      if_neg (by intro hc; linarith [h.2, hc.1]),
      if_neg (by intro hc; linarith [h.2])]

/-- C1: when video is not the master sync type and
`diff = video_clock - master_clock` is defined (not NaN) with
`|diff| < max_frame_duration`, `compute_target_delay d` returns
`max 0 (d + diff)` when `diff ≤ -sync_threshold`; `d + diff` when
`diff ≥ sync_threshold` and `d > 0.1`; `2 * d` when
`diff ≥ sync_threshold` and `d ≤ 0.1`; and `d` unchanged otherwise, where
`sync_threshold = max 0.04 (min 0.1 d)`. -/
theorem C1_compute_target_delay (s : PlayerState) (d vc mc : ℚ)
    (hm : get_master_sync_type s.cfgSyncType s.videoOpen s.audioOpen ≠ videoMaster)
    (hv : s.videoClock = some vc)
    (hmc : get_master_clock s.cfgSyncType s.videoOpen s.audioOpen
      s.videoClock s.audioClock s.extClock = some mc)
    (hfd : |vc - mc| < s.maxFrameDuration) :
    (vc - mc ≤ -(max 0.04 (min 0.1 d)) →
      s.computeTargetDelay d = max 0 (d + (vc - mc))) ∧
    (vc - mc ≥ max 0.04 (min 0.1 d) ∧ d > 0.1 →
      s.computeTargetDelay d = d + (vc - mc)) ∧
    (vc - mc ≥ max 0.04 (min 0.1 d) ∧ d ≤ 0.1 →
      s.computeTargetDelay d = 2 * d) ∧
    (-(max 0.04 (min 0.1 d)) < vc - mc ∧ vc - mc < max 0.04 (min 0.1 d) →
      s.computeTargetDelay d = d) :=
  ctd_cases s.cfgSyncType s.videoOpen s.audioOpen s.videoClock s.audioClock
    s.extClock s.maxFrameDuration d vc mc hm hv hmc hfd

/-- Concrete state used to instantiate the `compute_target_delay`
theorems: audio master configured, both streams open, video and audio
clocks at 0, `max_frame_duration = 10`. -/
def ctdState : PlayerState :=
  { cfgSyncType := audioMaster
    videoOpen := true
    audioOpen := true
    videoClock := some 0
    audioClock := some 0
    extClock := none
    maxFrameDuration := 10
    frameTimer := 0
    paused := false
    step := false
    forceRefresh := false
    frameDropsLate := 0 }

/-- C1, witness: in `ctdState` with nominal duration `0.04` the clock
difference `0` lies strictly inside the sync threshold band, so the delay
is returned unchanged. -/
theorem C1_compute_target_delay_witness :
    ctdState.computeTargetDelay 0.04 = 0.04 :=
  (C1_compute_target_delay ctdState 0.04 0 0 (by decide) rfl rfl
    (by norm_num [ctdState])).2.2.2 ⟨by norm_num, by norm_num⟩

/-- C6: `compute_target_delay` depends only on the selected master sync
type, the video clock, the master clock, the nominal duration and
`max_frame_duration`; two states agreeing on those yield identical
delays regardless of any other mutable state. -/
theorem C6_compute_target_delay_pure (s₁ s₂ : PlayerState) (d : ℚ)
    (hsync : get_master_sync_type s₁.cfgSyncType s₁.videoOpen s₁.audioOpen =
      get_master_sync_type s₂.cfgSyncType s₂.videoOpen s₂.audioOpen)
    (hv : s₁.videoClock = s₂.videoClock)
    (hmc : get_master_clock s₁.cfgSyncType s₁.videoOpen s₁.audioOpen
        s₁.videoClock s₁.audioClock s₁.extClock =
      get_master_clock s₂.cfgSyncType s₂.videoOpen s₂.audioOpen
        s₂.videoClock s₂.audioClock s₂.extClock)
    (hfd : s₁.maxFrameDuration = s₂.maxFrameDuration) :
    s₁.computeTargetDelay d = s₂.computeTargetDelay d := by
  unfold PlayerState.computeTargetDelay compute_target_delay
  rw [hmc, hv, hsync, hfd]

/-- Variant of `ctdState` differing in every field `compute_target_delay`
is claimed not to read: frame timer, pause/step flags, drop counter and
the (non-master) external clock. -/
def ctdStateJunk : PlayerState :=
  { ctdState with
    extClock := some 42
    frameTimer := 1000
    paused := true
    step := true
    forceRefresh := true
    frameDropsLate := 7 }

/-- C6, witness: the two concrete states agree on the four inputs but on
nothing else, and the computed delays coincide. -/
theorem C6_compute_target_delay_pure_witness :
    ctdState.computeTargetDelay 0.05 = ctdStateJunk.computeTargetDelay 0.05 :=
  C6_compute_target_delay_pure ctdState ctdStateJunk 0.05 rfl rfl rfl rfl

/-- Concrete state for claim C3: audio master, both streams open, video
clock lagging the audio master clock by `0.2` seconds. -/
def lagState : PlayerState :=
  { ctdState with videoClock := some 0, audioClock := some 0.2 }

/-- Helper: the sync threshold never exceeds `AV_SYNC_THRESHOLD_MAX`. -/
lemma sync_threshold_le (d : ℚ) : max 0.04 (min 0.1 d) ≤ 0.1 := by
  rcases max_cases (0.04 : ℚ) (min 0.1 d) with ⟨he, _⟩ | ⟨he, _⟩ <;> rw [he]
  · norm_num
  · exact min_le_left _ _

/-- C3, counterexample: with the video clock lagging the audio master by
`0.2` (diff = -0.2) and nominal duration `0.04`, `compute_target_delay`
returns `max 0 (0.04 - 0.2) = 0`, not the claimed forced repeat
`2 * 0.04 = 0.08`. -/
theorem C3_lagging_counterexample :
    lagState.computeTargetDelay 0.04 = 0 ∧
    lagState.computeTargetDelay 0.04 ≠ 2 * 0.04 := by
  have h := (ctd_cases audioMaster true true (some 0) (some 0.2) none 10
    0.04 0 0.2 (by decide) rfl rfl (by rw [abs_of_nonpos] <;> norm_num))
  have he : lagState.computeTargetDelay 0.04 = 0 := by
    have := h.1 (by
      rw [max_eq_left (by norm_num : min 0.1 (0.04 : ℚ) ≤ 0.04)]
      norm_num)
    rw [PlayerState.computeTargetDelay]
    show compute_target_delay audioMaster true true (some 0) (some 0.2) none 10 0.04 = 0
    rw [this, max_eq_left (by norm_num : (0.04 : ℚ) + (0 - 0.2) ≤ 0)]
  exact ⟨he, by rw [he]; norm_num⟩

/-- C3, amended: in an audio-master session with both clocks valid and
`max_frame_duration > 0.2`, a clock difference of `+0.2` (video LEADING
the master, magnitude above `AV_SYNC_THRESHOLD_MAX = 0.1`) with nominal
duration at most `0.1` yields the forced repeat `2 * nominal_duration`;
a clock difference of `-0.2` (video lagging, as the claim words it)
instead yields the catch-up delay `max 0 (nominal_duration - 0.2)`. -/
theorem C3_forced_repeat_amended (s : PlayerState) (d vc mc : ℚ)
    (hcfg : s.cfgSyncType = audioMaster) (haud : s.audioOpen = true)
    (hv : s.videoClock = some vc) (ha : s.audioClock = some mc)
    (hmfd : (0.2 : ℚ) < s.maxFrameDuration) :
    (vc - mc = 0.2 → d ≤ 0.1 → s.computeTargetDelay d = 2 * d) ∧
    (vc - mc = -0.2 → s.computeTargetDelay d = max 0 (d - 0.2)) := by
  have hm : get_master_sync_type s.cfgSyncType s.videoOpen s.audioOpen ≠ videoMaster := by
    simp [get_master_sync_type, hcfg, haud]
  have hmc : get_master_clock s.cfgSyncType s.videoOpen s.audioOpen
      s.videoClock s.audioClock s.extClock = some mc := by
    simp [get_master_clock, get_master_sync_type, hcfg, haud, ha]
  have hst := sync_threshold_le d
  constructor
  · intro hdiff hd
    exact (ctd_cases s.cfgSyncType s.videoOpen s.audioOpen s.videoClock
      s.audioClock s.extClock s.maxFrameDuration d vc mc hm hv hmc
      (by rw [hdiff, abs_of_nonneg] <;> linarith)).2.2.1
      ⟨by rw [hdiff]; linarith, hd⟩
  · intro hdiff
    have := (ctd_cases s.cfgSyncType s.videoOpen s.audioOpen s.videoClock
      s.audioClock s.extClock s.maxFrameDuration d vc mc hm hv hmc
      (by rw [hdiff, abs_of_nonpos] <;> linarith)).1
      (by rw [hdiff]; linarith)
    rw [PlayerState.computeTargetDelay, this, hdiff]
    ring_nf

/-- C3, witness for the amended theorem: a video clock leading the audio
master by `0.2` with nominal duration `0.04` forces the repeat `0.08`. -/
theorem C3_forced_repeat_amended_witness :
    ({ ctdState with videoClock := some 0.2, audioClock := some 0 }
      : PlayerState).computeTargetDelay 0.04 = 2 * 0.04 :=
  (C3_forced_repeat_amended _ 0.04 0.2 0 rfl rfl rfl rfl (by norm_num [ctdState])).1
    (by norm_num) (by norm_num)

/-- Mutable state read and written by `VideoState::synchronize_audio`
(`src/core/video_state.cpp` lines 1457-1490, identically
`VideoState::SynchronizeAudio` in `src/video_state.cpp` lines 1192-1225):
the configured master (`get_master_sync_type() != AV_SYNC_AUDIO_MASTER` is
the active case), the audio and master clocks, the moving-average filter
(`audio_diff_cum`, `audio_diff_avg_count`, `audio_diff_avg_coef`,
`audio_diff_threshold`) and the audio source sample rate. -/
structure AudioSync where
  masterIsAudio : Bool
  audioClock : Option ℚ
  masterClock : Option ℚ
  cum : ℚ
  avgCount : ℕ
  coef : ℚ
  threshold : ℚ
  freq : ℤ
  deriving DecidableEq, Repr

/-- Embeds `VideoState::synchronize_audio(nb_samples)` from
`src/core/video_state.cpp` (lines 1457-1490).  Constants:
`AV_NOSYNC_THRESHOLD = 10`, `AUDIO_DIFF_AVG_NB = 20`,
`SAMPLE_CORRECTION_PERCENT_MAX = 10`.  Returns the updated filter state
together with `wanted_nb_samples`. -/
def synchronize_audio (s : AudioSync) (nb : ℤ) : AudioSync × ℤ :=
  if s.masterIsAudio then (s, nb)
  else
    match osub s.audioClock s.masterClock with
    | none => ({ s with avgCount := 0, cum := 0 }, nb)
    | some diff =>
      if |diff| < 10 then
        let cum' := diff + s.coef * s.cum
        if s.avgCount < 20 then
          ({ s with cum := cum', avgCount := s.avgCount + 1 }, nb)
        else
          let avgDiff := cum' * (1 - s.coef)
          if |avgDiff| ≥ s.threshold then
            let wanted := nb + ratTrunc (diff * (s.freq : ℚ))
            let minNb := Int.tdiv (nb * 90) 100
            let maxNb := Int.tdiv (nb * 110) 100
            ({ s with cum := cum' }, avClip wanted minNb maxNb)
          else ({ s with cum := cum' }, nb)
      else ({ s with avgCount := 0, cum := 0 }, nb)

/-- Helper: `avClip` lands in the interval when the bounds are ordered. -/
lemma avClip_mem (a amin amax : ℤ) (h : amin ≤ amax) :
    amin ≤ avClip a amin amax ∧ avClip a amin amax ≤ amax := by
  unfold avClip
  split_ifs with h1 h2 <;> omega

/-- Helper: truncating division bounds for the ±10% sample window. -/
lemma tdiv_bounds (nb : ℤ) (h : 0 ≤ nb) :
    Int.tdiv (nb * 90) 100 ≤ nb ∧ nb ≤ Int.tdiv (nb * 110) 100 ∧
      Int.tdiv (nb * 90) 100 ≤ Int.tdiv (nb * 110) 100 := by
  rw [Int.tdiv_eq_ediv (mul_nonneg h (by norm_num)) (by norm_num),
    Int.tdiv_eq_ediv (mul_nonneg h (by norm_num)) (by norm_num)]
  omega

/-- Concrete state exhibiting the C4 counterexample: video master, audio
clock one second behind, warmed-up filter, zero threshold, 44100 Hz. -/
def audioSyncCex : AudioSync :=
  { masterIsAudio := false
    audioClock := some 0
    masterClock := some 1
    cum := 0
    avgCount := 20
    coef := 0
    threshold := 0
    freq := 44100 }

/-- C4, counterexample: `synchronize_audio 1` in `audioSyncCex` computes
`wanted = 1 + trunc(-1 * 44100) = -44099` and clips it to
`[1*90/100, 1*110/100] = [0, 1]` with truncating integer division,
returning `0`, which lies outside the claimed closed interval
`[0.9 * 1, 1.1 * 1]`. -/
theorem C4_sample_bounds_counterexample :
    (synchronize_audio audioSyncCex 1).2 = 0 ∧
    ¬((9 : ℚ) / 10 * 1 ≤ ((synchronize_audio audioSyncCex 1).2 : ℚ)) := by
  have h : (synchronize_audio audioSyncCex 1).2 = 0 := by
    unfold synchronize_audio audioSyncCex osub
    norm_num [ratTrunc, avClip,
      show ((⌈(-44100 : ℚ)⌉ : ℤ)) = -44100 from by
        rw [show ((-44100 : ℚ)) = ((-44100 : ℤ) : ℚ) from by norm_num, Int.ceil_intCast],
      show Int.tdiv 90 100 = 0 from by decide,
      show Int.tdiv 110 100 = 1 from by decide]
  exact ⟨h, by rw [h]; norm_num⟩

/-- C4, amended: for every non-negative `nb_samples` and every filter
state, `synchronize_audio` returns a value in the closed integer interval
`[nb_samples*90/100, nb_samples*110/100]` computed with C's truncating
integer division (which can fall short of the real bound `0.9*nb_samples`
by a fractional sample, as the counterexample shows). -/
theorem C4_sample_bounds_amended (s : AudioSync) (nb : ℤ) (h : 0 ≤ nb) :
    Int.tdiv (nb * 90) 100 ≤ (synchronize_audio s nb).2 ∧
      (synchronize_audio s nb).2 ≤ Int.tdiv (nb * 110) 100 := by
  obtain ⟨h1, h2, h3⟩ := tdiv_bounds nb h
  unfold synchronize_audio
  by_cases hm : s.masterIsAudio = true
  · rw [if_pos hm]; exact ⟨h1, h2⟩
  · rw [if_neg hm]
    rcases ho : osub s.audioClock s.masterClock with _ | diff
    · exact ⟨h1, h2⟩
    · simp only
      split_ifs with hd hcnt ht
      · exact ⟨h1, h2⟩
      · exact avClip_mem _ _ _ h3
      · exact ⟨h1, h2⟩
      · exact ⟨h1, h2⟩

/-- C4, witness for the amended theorem at `nb_samples = 1`. -/
theorem C4_sample_bounds_amended_witness :
    Int.tdiv ((1 : ℤ) * 90) 100 ≤ (synchronize_audio audioSyncCex 1).2 ∧
      (synchronize_audio audioSyncCex 1).2 ≤ Int.tdiv ((1 : ℤ) * 110) 100 :=
  C4_sample_bounds_amended audioSyncCex 1 (by norm_num)

/-- C7: when audio is not the master and the instantaneous difference is
NaN or has magnitude at least `AV_NOSYNC_THRESHOLD = 10`, the averaging
filter is reset (`audio_diff_avg_count` and `audio_diff_cum` both become
0) and `nb_samples` is returned unchanged. -/
theorem C7_nosync_reset (s : AudioSync) (nb : ℤ)
    (hm : s.masterIsAudio = false)
    (hd : ∀ d : ℚ, osub s.audioClock s.masterClock = some d → 10 ≤ |d|) :
    synchronize_audio s nb = ({ s with avgCount := 0, cum := 0 }, nb) := by
  unfold synchronize_audio
  rw [hm]
  simp only [Bool.false_eq_true, if_false]
  rcases ho : osub s.audioClock s.masterClock with _ | diff
  · rfl
  · have := hd diff ho
    simp only
    rw [if_neg (by rw [not_lt]; exact this)]

/-- C7, witness: a 12-second instantaneous difference resets the filter. -/
theorem C7_nosync_reset_witness :
    synchronize_audio
        { audioSyncCex with masterClock := some 12, cum := 5, avgCount := 7 } 100 =
      ({ audioSyncCex with masterClock := some 12, cum := 0, avgCount := 0 }, 100) := by
  have h := C7_nosync_reset
    { audioSyncCex with masterClock := some 12, cum := 5, avgCount := 7 } 100 rfl
    (by
      intro d hd
      simp only [audioSyncCex, osub] at hd
      rw [show d = -12 by injection hd with h; rw [show ((0 : ℚ) - 12) = -12 from by norm_num] at h; exact h.symm]
      rw [abs_of_nonpos] <;> norm_num)
  rw [h]

/-- Embeds `VideoState::check_external_clock_speed` from
`src/core/video_state.cpp` (lines 1259-1279).  `videoOpen` models
`video_stream >= 0`, `vq`/`aq` the packet queues' `nb_packets()`.
Constants: `EXTERNAL_CLOCK_MIN_FRAMES = 2`, `EXTERNAL_CLOCK_MAX_FRAMES =
10`, `EXTERNAL_CLOCK_SPEED_MIN = 0.900`, `EXTERNAL_CLOCK_SPEED_MAX =
1.010`, `EXTERNAL_CLOCK_SPEED_STEP = 0.001`.  Returns the new speed of
the external (subtitle-engine) clock. -/
def check_external_clock_speed (videoOpen audioOpen : Bool) (vq aq : ℕ)
    (speed : ℚ) : ℚ :=
  if (videoOpen ∧ vq ≤ 2) ∨ (audioOpen ∧ aq ≤ 2) then
    max 0.900 (speed - 0.001)
  else if (¬videoOpen ∨ vq > 10) ∧ (¬audioOpen ∨ aq > 10) then
    min 1.010 (speed + 0.001)
  else if speed ≠ 1.0 then
    speed + 0.001 * (1.0 - speed) / |1.0 - speed|
  else speed

/-- C8: if the external clock speed lies in `[0.900, 1.010]` before
`check_external_clock_speed`, it still lies in that interval afterwards
and moves by at most one `EXTERNAL_CLOCK_SPEED_STEP = 0.001`; the speed
is stepped down toward `0.900` when an open stream's packet queue holds
at most `2` packets, stepped up toward `1.010` when every open stream's
queue holds more than `10`, and otherwise moved one step toward `1.0`
(unchanged when already `1.0`). -/
theorem C8_external_clock_speed (videoOpen audioOpen : Bool) (vq aq : ℕ)
    (speed : ℚ) (hlo : 0.900 ≤ speed) (hhi : speed ≤ 1.010) :
    (0.900 ≤ check_external_clock_speed videoOpen audioOpen vq aq speed ∧
      check_external_clock_speed videoOpen audioOpen vq aq speed ≤ 1.010) ∧
    |check_external_clock_speed videoOpen audioOpen vq aq speed - speed| ≤ 0.001 ∧
    ((videoOpen ∧ vq ≤ 2) ∨ (audioOpen ∧ aq ≤ 2) →
      check_external_clock_speed videoOpen audioOpen vq aq speed =
        max 0.900 (speed - 0.001)) ∧
    (¬((videoOpen ∧ vq ≤ 2) ∨ (audioOpen ∧ aq ≤ 2)) →
      (¬videoOpen ∨ vq > 10) ∧ (¬audioOpen ∨ aq > 10) →
      check_external_clock_speed videoOpen audioOpen vq aq speed =
        min 1.010 (speed + 0.001)) ∧
    (¬((videoOpen ∧ vq ≤ 2) ∨ (audioOpen ∧ aq ≤ 2)) →
      ¬((¬videoOpen ∨ vq > 10) ∧ (¬audioOpen ∨ aq > 10)) →
      (speed = 1 → check_external_clock_speed videoOpen audioOpen vq aq speed = speed) ∧
      (speed < 1 →
        check_external_clock_speed videoOpen audioOpen vq aq speed = speed + 0.001) ∧
      (1 < speed →
        check_external_clock_speed videoOpen audioOpen vq aq speed = speed - 0.001)) := by
  unfold check_external_clock_speed
  by_cases h1 : (videoOpen ∧ vq ≤ 2) ∨ (audioOpen ∧ aq ≤ 2)
  · rw [if_pos h1]
    refine ⟨⟨le_max_left _ _, ?_⟩, ?_, fun _ => rfl, fun hn _ => absurd h1 hn,
      fun hn _ => absurd h1 hn⟩
    · rcases max_cases (0.900 : ℚ) (speed - 0.001) with ⟨he, _⟩ | ⟨he, _⟩ <;>
        rw [he] <;> linarith
    · rcases max_cases (0.900 : ℚ) (speed - 0.001) with ⟨he, hc⟩ | ⟨he, hc⟩ <;>
        rw [he, abs_le] <;> constructor <;> linarith
  · rw [if_neg h1]
    by_cases h2 : (¬videoOpen ∨ vq > 10) ∧ (¬audioOpen ∨ aq > 10)
    · rw [if_pos h2]
      refine ⟨⟨?_, min_le_left _ _⟩, ?_, fun hc => absurd hc h1,
        fun _ _ => rfl, fun _ hn => absurd h2 hn⟩
      · rcases min_cases (1.010 : ℚ) (speed + 0.001) with ⟨he, _⟩ | ⟨he, _⟩ <;>
          rw [he] <;> linarith
      · rcases min_cases (1.010 : ℚ) (speed + 0.001) with ⟨he, hc⟩ | ⟨he, hc⟩ <;>
          rw [he, abs_le] <;> constructor <;> linarith
    · rw [if_neg h2]
      by_cases hs : speed = 1.0
      · rw [if_neg (by simpa using hs)]
        refine ⟨⟨hlo, hhi⟩, by rw [sub_self, abs_zero]; norm_num,
          fun hc => absurd hc h1, fun _ hc => absurd hc h2,
          fun _ _ => ⟨fun _ => rfl, fun hlt => absurd hlt (by rw [hs]; norm_num),
            fun hgt => absurd hgt (by rw [hs]; norm_num)⟩⟩
      · rw [if_pos (by simpa using hs)]
        have hne : speed ≠ 1 := by intro he; apply hs; rw [he]; norm_num
        rcases lt_or_gt_of_ne hne with hlt | hgt
        · have habs : |1.0 - speed| = 1.0 - speed := abs_of_pos (by linarith)
          have hdiv : (0.001 : ℚ) * (1.0 - speed) / |1.0 - speed| = 0.001 := by
            rw [habs, mul_div_assoc, div_self (by linarith), mul_one]
          rw [hdiv]
          refine ⟨⟨by linarith, by linarith⟩,
            by rw [add_sub_cancel_left, abs_of_pos (show (0 : ℚ) < 0.001 from by norm_num)],
            fun hc => absurd hc h1, fun _ hc => absurd hc h2,
            fun _ _ => ⟨fun he => absurd he hne, fun _ => rfl,
              fun hgt => absurd hgt (by linarith)⟩⟩
        · have habs : |1.0 - speed| = speed - 1.0 := by
            rw [abs_of_neg (by linarith)]; ring
          have hdiv : (0.001 : ℚ) * (1.0 - speed) / |1.0 - speed| = -0.001 := by
            rw [habs, show (1.0 - speed : ℚ) = -(speed - 1.0) from by ring,
              mul_neg, neg_div, mul_div_assoc, div_self (by linarith), mul_one]
          rw [hdiv]
          refine ⟨⟨by linarith, by linarith⟩,
            by rw [show speed + -0.001 - speed = (-0.001 : ℚ) from by ring, abs_of_neg] <;> norm_num,
            fun hc => absurd hc h1, fun _ hc => absurd hc h2,
            fun _ _ => ⟨fun he => absurd he hne, fun hlt => absurd hlt (by linarith),
              fun _ => by ring⟩⟩

/-- C8, witness: mid-fill queues with speed `1.005` relax one step toward
`1.0`. -/
theorem C8_external_clock_speed_witness :
    check_external_clock_speed true true 5 5 1.005 = 1.005 - 0.001 :=
  (((C8_external_clock_speed true true 5 5 1.005 (by norm_num)
    (by norm_num)).2.2.2.2 (by norm_num) (by norm_num)).2.2) (by norm_num)

/-- Decoded video frame as the scheduler sees it (`Frame` /
`core::VideoFrame`): presentation timestamp in seconds (`none` = NaN /
unknown), nominal duration, and the generation serial stamped at decode
time. -/
structure Frame where
  pts : Option ℚ
  duration : ℚ
  serial : ℤ
  deriving DecidableEq, Repr

/-- Embeds `VideoState::vp_duration` from `src/core/video_state.cpp`
(lines 1281-1292): the scheduled duration between consecutive frames. -/
def vp_duration (maxFrameDuration : ℚ) (vp nextvp : Frame) : ℚ :=
  if vp.serial = nextvp.serial then
    match osub nextvp.pts vp.pts with
    | none => vp.duration
    | some dur => if dur ≤ 0 ∨ dur > maxFrameDuration then vp.duration else dur
  else 0

/-- C9: `vp_duration` returns `0` when the two frames carry different
serials; when the serials match it returns `nextvp.pts - vp.pts`, falling
back to `vp.duration` whenever that difference is NaN (either pts
unknown), non-positive, or greater than `max_frame_duration`. -/
theorem C9_vp_duration (mfd : ℚ) (vp nextvp : Frame) :
    (vp.serial ≠ nextvp.serial → vp_duration mfd vp nextvp = 0) ∧
    (vp.serial = nextvp.serial →
      (osub nextvp.pts vp.pts = none → vp_duration mfd vp nextvp = vp.duration) ∧
      (∀ dur : ℚ, osub nextvp.pts vp.pts = some dur →
        ((dur ≤ 0 ∨ dur > mfd) → vp_duration mfd vp nextvp = vp.duration) ∧
        (0 < dur → dur ≤ mfd → vp_duration mfd vp nextvp = dur))) := by
  constructor
  · intro hne
    unfold vp_duration
    rw [if_neg hne]
  · intro hse
    constructor
    · intro hnone
      unfold vp_duration
      rw [if_pos hse, hnone]
    · intro dur hdur
      constructor
      · intro hbad
        unfold vp_duration
        rw [if_pos hse, hdur]
        exact if_pos hbad
      · intro hpos hle
        unfold vp_duration
        rw [if_pos hse, hdur]
        exact if_neg (by push_neg; exact ⟨by linarith, hle⟩)

/-- C9, witness: matching serials with a well-formed `0.04` pts step. -/
theorem C9_vp_duration_witness :
    vp_duration 10 { pts := some 1, duration := 0.05, serial := 3 }
      { pts := some 1.04, duration := 0.05, serial := 3 } = 0.04 := by
  have h := ((C9_vp_duration 10 { pts := some 1, duration := 0.05, serial := 3 }
    { pts := some 1.04, duration := 0.05, serial := 3 }).2 rfl).2 0.04
    (by unfold osub; norm_num)
  exact h.2 (by norm_num) (by norm_num)

/-- Embeds the early frame-drop decision of `VideoState::GetVideoFrame`
from `src/video_state.cpp` (lines 1447-1479): given a successfully
decoded frame, decides whether it is discarded before queueing.
`framedrop` is the option value, `masterIsVideo` the result of
`GetMasterSyncType()`, `dpts` the frame pts in seconds (`none` models
`AV_NOPTS_VALUE`), `masterClock` the current master clock (`none` = NaN),
`flfd` the `frame_last_filter_delay_`, `pktSerial`/`streamSerial` the
decoder's and stream's serials, and `nbPackets` the video packet queue
size. -/
def should_drop_frame (framedrop : ℤ) (masterIsVideo : Bool)
    (dpts : Option ℚ) (masterClock : Option ℚ) (flfd : ℚ)
    (pktSerial streamSerial : ℤ) (nbPackets : ℕ) : Bool :=
  if framedrop > 0 ∨ (framedrop ≠ 0 ∧ ¬masterIsVideo) then
    match dpts with
    | none => false
    | some p =>
      match masterClock with
      | none => false
      | some mc =>
        let diff := p - mc
        if |diff| < 10 ∧ diff - flfd < 0 ∧ pktSerial = streamSerial ∧ nbPackets ≠ 0 then
          true
        else false
  else false

/-- C10: the decode-side early drop discards a decoded frame exactly when
frame dropping is enabled for the current master sync type
(`framedrop > 0`, or `framedrop ≠ 0` and video is not the master), the
frame has a valid pts, `diff = pts_seconds - master_clock` is defined
(not NaN) with `|diff| < 10`, `diff - frame_last_filter_delay < 0`, the
decoder's packet serial equals the stream serial, and the video packet
queue is non-empty; in every other case the frame is kept. -/
theorem C10_early_frame_drop (framedrop : ℤ) (masterIsVideo : Bool)
    (dpts masterClock : Option ℚ) (flfd : ℚ) (pktSerial streamSerial : ℤ)
    (nbPackets : ℕ) :
    should_drop_frame framedrop masterIsVideo dpts masterClock flfd
        pktSerial streamSerial nbPackets = true ↔
      (framedrop > 0 ∨ (framedrop ≠ 0 ∧ masterIsVideo = false)) ∧
      ∃ p mc : ℚ, dpts = some p ∧ masterClock = some mc ∧
        |p - mc| < 10 ∧ p - mc - flfd < 0 ∧ pktSerial = streamSerial ∧
        nbPackets ≠ 0 := by
  unfold should_drop_frame
  by_cases he : framedrop > 0 ∨ (framedrop ≠ 0 ∧ ¬masterIsVideo)
  · rw [if_pos he]
    rcases dpts with _ | p
    · simp
    · rcases masterClock with _ | mc
      · simp
      · simp only
        by_cases hc : |p - mc| < 10 ∧ p - mc - flfd < 0 ∧
            pktSerial = streamSerial ∧ nbPackets ≠ 0
        · rw [if_pos hc]
          constructor
          · intro _
            exact ⟨by simpa using he, p, mc, rfl, rfl, hc.1, hc.2.1, hc.2.2.1, hc.2.2.2⟩
          · intro _; rfl
        · rw [if_neg hc]
          constructor
          · intro hfalse; exact absurd hfalse (by simp)
          · rintro ⟨_, p', mc', hp', hmc', h1, h2, h3, h4⟩
            obtain rfl : p' = p := by injection hp' with h5; exact h5.symm
            obtain rfl : mc' = mc := by injection hmc' with h6; exact h6.symm
            exact absurd ⟨h1, h2, h3, h4⟩ hc
  · rw [if_neg he]
    constructor
    · intro hfalse; exact absurd hfalse (by simp)
    · rintro ⟨hen, _⟩
      exact absurd (by simpa using hen) he

/-- C10, witness: with `framedrop = 1`, a frame one second behind the
master clock, matching serials and a non-empty packet queue, the frame is
dropped. -/
theorem C10_early_frame_drop_witness :
    should_drop_frame 1 false (some 0) (some 1) 0 3 3 5 = true :=
  (C10_early_frame_drop 1 false (some 0) (some 1) 0 3 3 5).mpr
    ⟨Or.inl (by norm_num), 0, 1, rfl, rfl,
      by rw [show (0 : ℚ) - 1 = -1 from by norm_num, abs_of_nonpos] <;> norm_num,
      by norm_num, rfl, by norm_num⟩

/-- Modelled from the spec: the `sync_to(other_clock, threshold)`
operation of the Stream Clock (spec §4.3), used by `update_video_pts` to
keep the external/subtitle clock near the video clock; the Clock class
itself is not under `src/`.  If this clock is invalid or diverges from
the reference by more than the threshold, it is re-pinned to the
reference's value. -/
def sync_clock_with (c master : Option ℚ) (threshold : ℚ) : Option ℚ :=
  match c, master with
  | none, m => m
  | some cv, none => some cv
  | some cv, some mv => if |cv - mv| > threshold then some mv else some cv

/-- Read-only inputs of one `video_refresh` pass (fields of `VideoState`
the retry loop never writes).  `now` models `av_gettime_relative()/1e6`,
frozen for the pass. -/
structure RefreshCtx where
  qSerial : ℤ
  now : ℚ
  maxFrameDuration : ℚ
  cfgSyncType : AvSyncType
  videoOpen : Bool
  audioOpen : Bool
  audioClock : Option ℚ
  framedrop : ℤ
  deriving DecidableEq, Repr

/-- Mutable accumulator of the `video_refresh` retry loop: the keep-last
slot and shown flag of the frame queue (modelled from the spec, §4.2:
`move_to_next` consumes the current frame, which stays addressable via
`peek_last`), the frame timer, the video and external clocks, the
pause/step/force-refresh flags, the late-drop counter, and the list of
video-clock updates performed (pts, serial). -/
structure LoopAcc where
  lastFrame : Frame
  shown : Bool
  frameTimer : ℚ
  videoClock : Option ℚ
  videoClockSerial : ℤ
  extClock : Option ℚ
  paused : Bool
  step : Bool
  forceRefresh : Bool
  drops : ℕ
  updates : List (ℚ × ℤ)
  deriving DecidableEq, Repr

/-- Frame-queue `next()` as seen by the loop state: the consumed frame
becomes the keep-last slot (the list tail is handled by the caller). -/
def LoopAcc.consume (acc : LoopAcc) (vp : Frame) : LoopAcc :=
  { acc with lastFrame := vp, shown := true }

/-- Embeds `VideoState::update_video_pts` from `src/core/video_state.cpp`:
pins the video clock to `(pts, serial)` and syncs the subtitle/external
clock to it with threshold `AV_NOSYNC_THRESHOLD = 10`; the update is also
recorded in `updates`. -/
def update_video_pts (acc : LoopAcc) (pts : ℚ) (serial : ℤ) : LoopAcc :=
  { acc with
    videoClock := some pts
    videoClockSerial := serial
    extClock := sync_clock_with acc.extClock (some pts) 10
    updates := acc.updates ++ [(pts, serial)] }

/-- Tail of the displayed-frame path of `video_refresh`: consume the
frame, request a refresh, and toggle pause when single-stepping
(`if (step && !paused_) stream_toggle_pause()`). -/
def finish_frame (vp : Frame) (rest : List Frame) (acc : LoopAcc) :
    List Frame × LoopAcc :=
  let acc1 := { acc.consume vp with forceRefresh := true }
  if acc1.step = true ∧ acc1.paused = false then
    (rest, { acc1 with paused := !acc1.paused })
  else (rest, acc1)

/-- The `frame_timer = av_gettime_relative()/1e6` reset performed when
the last shown frame and the head frame carry different serials. -/
def reset_timer_if_new_serial (ctx : RefreshCtx) (vp : Frame) (acc : LoopAcc) : LoopAcc :=
  if acc.lastFrame.serial ≠ vp.serial then { acc with frameTimer := ctx.now } else acc

/-- The target delay computed for the head frame:
`compute_target_delay(vp_duration(lastvp, vp))`. -/
def head_delay (ctx : RefreshCtx) (vp : Frame) (acc : LoopAcc) : ℚ :=
  compute_target_delay ctx.cfgSyncType ctx.videoOpen ctx.audioOpen acc.videoClock
    ctx.audioClock acc.extClock ctx.maxFrameDuration
    (vp_duration ctx.maxFrameDuration acc.lastFrame vp)

/-- The `frame_timer += delay` advance, clamped back to `now` when the
timer fell behind by more than `AV_SYNC_THRESHOLD_MAX = 0.1`. -/
def advance_timer (ctx : RefreshCtx) (delay : ℚ) (acc : LoopAcc) : LoopAcc :=
  let ft0 := acc.frameTimer + delay
  if 0 < delay ∧ ctx.now - ft0 > 0.1 then { acc with frameTimer := ctx.now }
  else { acc with frameTimer := ft0 }

/-- The `if (!isnan(vp->pts)) update_video_pts(...)` step. -/
def set_video_pts (acc : LoopAcc) (vp : Frame) : LoopAcc :=
  match vp.pts with
  | some p => update_video_pts acc p vp.serial
  | none => acc

/-- The late frame-drop condition: not single-stepping, frame dropping
enabled for the current master sync type, and the next queued frame
already due. -/
def should_drop_late (ctx : RefreshCtx) (vp nextvp : Frame) (acc : LoopAcc) : Bool :=
  if acc.step = false ∧
      (ctx.framedrop > 0 ∨ (ctx.framedrop ≠ 0 ∧
        get_master_sync_type ctx.cfgSyncType ctx.videoOpen ctx.audioOpen ≠ videoMaster)) ∧
      ctx.now > acc.frameTimer + vp_duration ctx.maxFrameDuration vp nextvp then
    true
  else false

/-- Embeds the `retry:` loop of `VideoState::video_refresh` from
`src/core/video_state.cpp` (lines 507-611; same structure as
`VideoState::VideoRefresh` in `src/video_state.cpp` lines 576-646),
for a session without a subtitle stream.  Returns the remaining frame
queue and the updated loop state.  A head frame whose serial differs from
the packet queue's serial is consumed and the loop retries; otherwise the
frame is scheduled: not-yet-due and paused passes leave the queue
untouched, the late-drop path consumes and retries, and the display path
ends the loop via `finish_frame`. -/
def refresh_video_loop (ctx : RefreshCtx) : List Frame → LoopAcc → List Frame × LoopAcc
  | [], acc => ([], acc)
  | vp :: rest, acc =>
    if vp.serial ≠ ctx.qSerial then
      refresh_video_loop ctx rest (acc.consume vp)
    else
      let acc1 := reset_timer_if_new_serial ctx vp acc
      if acc1.paused = true then (vp :: rest, acc1)
      else if ctx.now < acc1.frameTimer + head_delay ctx vp acc1 then (vp :: rest, acc1)
      else
        let acc3 := set_video_pts (advance_timer ctx (head_delay ctx vp acc1) acc1) vp
        match rest with
        | nextvp :: _ =>
          if should_drop_late ctx vp nextvp acc3 = true then
            refresh_video_loop ctx rest { acc3.consume vp with drops := acc3.drops + 1 }
          else finish_frame vp rest acc3
        | [] => finish_frame vp rest acc3

/-- Full state of one `video_refresh` pass: the loop inputs and
accumulator fields plus the display options read at the `display:`
label. -/
structure RefreshState where
  qSerial : ℤ
  now : ℚ
  maxFrameDuration : ℚ
  cfgSyncType : AvSyncType
  videoOpen : Bool
  audioOpen : Bool
  audioClock : Option ℚ
  framedrop : ℤ
  displayDisable : Bool
  showModeVideo : Bool
  frames : List Frame
  lastFrame : Frame
  shown : Bool
  frameTimer : ℚ
  videoClock : Option ℚ
  videoClockSerial : ℤ
  extClock : Option ℚ
  paused : Bool
  step : Bool
  forceRefresh : Bool
  drops : ℕ
  deriving DecidableEq, Repr

/-- The loop inputs of a refresh state. -/
def RefreshState.ctx (s : RefreshState) : RefreshCtx :=
  { qSerial := s.qSerial, now := s.now, maxFrameDuration := s.maxFrameDuration
    cfgSyncType := s.cfgSyncType, videoOpen := s.videoOpen
    audioOpen := s.audioOpen, audioClock := s.audioClock
    framedrop := s.framedrop }

/-- The loop accumulator of a refresh state (no updates performed yet). -/
def RefreshState.acc (s : RefreshState) : LoopAcc :=
  { lastFrame := s.lastFrame, shown := s.shown, frameTimer := s.frameTimer
    videoClock := s.videoClock, videoClockSerial := s.videoClockSerial
    extClock := s.extClock, paused := s.paused, step := s.step
    forceRefresh := s.forceRefresh, drops := s.drops, updates := [] }

/-- Result of one `video_refresh` pass: the new state, the video frames
displayed by the pass (`VideoDisplay` draws the keep-last frame when a
refresh is forced, the show mode is video and a frame has been shown),
and the video-clock updates performed. -/
structure RefreshOut where
  state : RefreshState
  displayed : List Frame
  clockUpdates : List (ℚ × ℤ)
  deriving DecidableEq, Repr

/-- Embeds one pass of `VideoState::video_refresh` from
`src/core/video_state.cpp` (lines 507-611) for a session without a
subtitle stream: run the retry loop over the frame queue, then perform
the `display:` label (`VideoDisplay` → `VideoImageDisplay` draws
`PeekLast()` when `!display_disable && force_refresh && show_mode ==
SHOW_MODE_VIDEO && RindexShown()`), and finally clear `force_refresh`. -/
def video_refresh (s : RefreshState) : RefreshOut :=
  if s.videoOpen = true then
    let r := refresh_video_loop s.ctx s.frames s.acc
    let acc := r.2
    let displayed :=
      if s.displayDisable = false ∧ acc.forceRefresh = true ∧
          s.showModeVideo = true ∧ acc.shown = true then
        [acc.lastFrame]
      else []
    { state := { s with
        frames := r.1, lastFrame := acc.lastFrame, shown := acc.shown
        frameTimer := acc.frameTimer, videoClock := acc.videoClock
        videoClockSerial := acc.videoClockSerial, extClock := acc.extClock
        paused := acc.paused, step := acc.step, forceRefresh := false
        drops := acc.drops }
      displayed := displayed
      clockUpdates := acc.updates }
  else
    { state := { s with forceRefresh := false }, displayed := [], clockUpdates := [] }

lemma consume_updates (acc : LoopAcc) (vp : Frame) :
    (acc.consume vp).updates = acc.updates := rfl

lemma reset_timer_updates (ctx : RefreshCtx) (vp : Frame) (acc : LoopAcc) :
    (reset_timer_if_new_serial ctx vp acc).updates = acc.updates := by
  unfold reset_timer_if_new_serial; split_ifs <;> rfl

lemma advance_timer_updates (ctx : RefreshCtx) (delay : ℚ) (acc : LoopAcc) :
    (advance_timer ctx delay acc).updates = acc.updates := by
  unfold advance_timer; dsimp only; split_ifs <;> rfl

lemma set_video_pts_updates (acc : LoopAcc) (vp : Frame) :
    ∀ u ∈ (set_video_pts acc vp).updates, u ∈ acc.updates ∨ u.2 = vp.serial := by
  unfold set_video_pts
  rcases vp.pts with _ | p
  · intro u hu; exact Or.inl hu
  · intro u hu
    simp only [update_video_pts, List.mem_append, List.mem_singleton] at hu
    rcases hu with hu | hu
    · exact Or.inl hu
    · right; rw [hu]

lemma finish_frame_updates (vp : Frame) (rest : List Frame) (acc : LoopAcc) :
    ((finish_frame vp rest acc).2).updates = acc.updates := by
  unfold finish_frame; dsimp only; split_ifs <;> rfl

lemma loop_updates_serial (ctx : RefreshCtx) (frames : List Frame) (acc : LoopAcc)
    (h : ∀ u ∈ acc.updates, u.2 = ctx.qSerial) :
    ∀ u ∈ (refresh_video_loop ctx frames acc).2.updates, u.2 = ctx.qSerial := by
  induction frames generalizing acc with
  | nil => simpa [refresh_video_loop] using h
  | cons vp rest ih =>
    rw [refresh_video_loop]
    by_cases h1 : vp.serial ≠ ctx.qSerial
    · rw [if_pos h1]
      exact ih _ (by simpa [consume_updates] using h)
    · rw [if_neg h1]
      push_neg at h1
      simp only
      have h' : ∀ u ∈ (reset_timer_if_new_serial ctx vp acc).updates, u.2 = ctx.qSerial := by
        rw [reset_timer_updates]; exact h
      set acc1 := reset_timer_if_new_serial ctx vp acc with hacc1
      by_cases h2 : acc1.paused = true
      · rw [if_pos h2]; exact h'
      · rw [if_neg h2]
        by_cases h3 : ctx.now < acc1.frameTimer + head_delay ctx vp acc1
        · rw [if_pos h3]; exact h'
        · rw [if_neg h3]
          have h'' : ∀ u ∈ (set_video_pts (advance_timer ctx (head_delay ctx vp acc1) acc1) vp).updates,
              u.2 = ctx.qSerial := by
            intro u hu
            rcases set_video_pts_updates _ _ u hu with hin | hser
            · rw [advance_timer_updates] at hin; exact h' u hin
            · rw [hser, h1]
          set acc3 := set_video_pts (advance_timer ctx (head_delay ctx vp acc1) acc1) vp with hacc3
          rcases rest with _ | ⟨nextvp, rest'⟩
          · rw [finish_frame_updates]; exact h''
          · simp only
            by_cases h4 : should_drop_late ctx vp nextvp acc3 = true
            · rw [if_pos h4]
              exact ih _ (by simpa [consume_updates] using h'')
            · rw [if_neg h4]
              rw [finish_frame_updates]
              exact h''

lemma consume_force (acc : LoopAcc) (vp : Frame) :
    (acc.consume vp).forceRefresh = acc.forceRefresh := rfl

lemma reset_timer_force (ctx : RefreshCtx) (vp : Frame) (acc : LoopAcc) :
    (reset_timer_if_new_serial ctx vp acc).forceRefresh = acc.forceRefresh := by
  unfold reset_timer_if_new_serial; split_ifs <;> rfl

lemma advance_timer_force (ctx : RefreshCtx) (delay : ℚ) (acc : LoopAcc) :
    (advance_timer ctx delay acc).forceRefresh = acc.forceRefresh := by
  unfold advance_timer; dsimp only; split_ifs <;> rfl

lemma set_video_pts_force (acc : LoopAcc) (vp : Frame) :
    (set_video_pts acc vp).forceRefresh = acc.forceRefresh := by
  unfold set_video_pts
  rcases vp.pts with _ | p <;> rfl

lemma finish_frame_force (vp : Frame) (rest : List Frame) (acc : LoopAcc) :
    ((finish_frame vp rest acc).2).forceRefresh = true := by
  unfold finish_frame; dsimp only; split_ifs <;> rfl

lemma finish_frame_last (vp : Frame) (rest : List Frame) (acc : LoopAcc) :
    ((finish_frame vp rest acc).2).lastFrame = vp := by
  unfold finish_frame; dsimp only; split_ifs <;> rfl

lemma loop_display_serial (ctx : RefreshCtx) (frames : List Frame) (acc : LoopAcc)
    (h : acc.forceRefresh = false) :
    (refresh_video_loop ctx frames acc).2.forceRefresh = true →
    (refresh_video_loop ctx frames acc).2.lastFrame.serial = ctx.qSerial := by
  induction frames generalizing acc with
  | nil =>
    rw [refresh_video_loop]
    intro hf
    rw [h] at hf
    exact absurd hf (by norm_num)
  | cons vp rest ih =>
    rw [refresh_video_loop]
    by_cases h1 : vp.serial ≠ ctx.qSerial
    · rw [if_pos h1]
      exact ih _ (by rw [consume_force]; exact h)
    · rw [if_neg h1]
      push_neg at h1
      simp only
      have h' : (reset_timer_if_new_serial ctx vp acc).forceRefresh = false := by
        rw [reset_timer_force]; exact h
      set acc1 := reset_timer_if_new_serial ctx vp acc with hacc1
      by_cases h2 : acc1.paused = true
      · rw [if_pos h2]
        intro hf; rw [h'] at hf; exact absurd hf (by norm_num)
      · rw [if_neg h2]
        by_cases h3 : ctx.now < acc1.frameTimer + head_delay ctx vp acc1
        · rw [if_pos h3]
          intro hf; rw [h'] at hf; exact absurd hf (by norm_num)
        · rw [if_neg h3]
          have h'' : (set_video_pts (advance_timer ctx (head_delay ctx vp acc1) acc1) vp).forceRefresh = false := by
            rw [set_video_pts_force, advance_timer_force]; exact h'
          set acc3 := set_video_pts (advance_timer ctx (head_delay ctx vp acc1) acc1) vp with hacc3
          rcases rest with _ | ⟨nextvp, rest'⟩
          · intro _
            rw [finish_frame_last, h1]
          · simp only
            by_cases h4 : should_drop_late ctx vp nextvp acc3 = true
            · rw [if_pos h4]
              exact ih _ (by rw [consume_force]; exact h'')
            · rw [if_neg h4]
              intro _
              rw [finish_frame_last, h1]

lemma video_refresh_stale_head (s : RefreshState) (vp : Frame) (rest : List Frame)
    (hopen : s.videoOpen = true) (hf : s.frames = vp :: rest)
    (hs : vp.serial ≠ s.qSerial) :
    video_refresh s =
      video_refresh { s with frames := rest, lastFrame := vp, shown := true } := by
  have hloop : refresh_video_loop s.ctx s.frames s.acc =
      refresh_video_loop s.ctx rest (s.acc.consume vp) := by
    rw [hf, refresh_video_loop, if_pos (show vp.serial ≠ s.ctx.qSerial from hs)]
  unfold video_refresh
  rw [hloop]
  simp only [hopen, RefreshState.ctx, RefreshState.acc, LoopAcc.consume, if_true]


/-- Stale frame used by the C5 counterexample: decoded under serial 0. -/
def staleFrame : Frame := { pts := some 1, duration := 1, serial := 0 }

/-- Refresh state for the C5 counterexample: video stream open, packet
queue serial already bumped to 1 by a seek, the frame queue holding only
`staleFrame`, and a forced refresh pending (e.g. a window expose). -/
def refreshCex : RefreshState :=
  { qSerial := 1, now := 0, maxFrameDuration := 10
    cfgSyncType := AvSyncType.audioMaster
    videoOpen := true, audioOpen := true, audioClock := some 0, framedrop := 0
    displayDisable := false, showModeVideo := true
    frames := [staleFrame], lastFrame := { pts := some 0, duration := 1, serial := 0 }
    shown := true, frameTimer := 0, videoClock := some 0, videoClockSerial := 0
    extClock := none, paused := false, step := false, forceRefresh := true
    drops := 0 }

/-- C5, counterexample: in `refreshCex` the head frame carries the
pre-seek serial 0 while the packet queue serial is 1; the refresh pass
consumes it into the keep-last slot, and the pending forced refresh then
draws that very frame at the `display:` label — a frame carrying the
pre-seek serial is displayed, contradicting the claim that such a frame
is consumed without ever being displayed. -/
theorem C5_stale_display_counterexample :
    staleFrame.serial ≠ refreshCex.qSerial ∧
    refreshCex.frames = [staleFrame] ∧
    (video_refresh refreshCex).displayed = [staleFrame] := by
  decide

/-- C5, amended: in every refresh pass, (a) every video-clock update
carries the packet queue's current serial (so a stale head frame is
consumed without updating the video clock), (b) when no external forced
refresh is pending, every frame displayed by the pass carries the current
serial, and (c) a head frame with a stale serial is consumed with no
other effect: the pass behaves exactly as if that frame had already been
moved into the keep-last slot.  (Without (b)'s proviso the claim fails: a
pending forced refresh may re-draw the keep-last frame, which can carry
the pre-seek serial, as the counterexample shows.) -/
theorem C5_serial_discard_amended (s : RefreshState) :
    (∀ u ∈ (video_refresh s).clockUpdates, u.2 = s.qSerial) ∧
    (s.forceRefresh = false → ∀ f ∈ (video_refresh s).displayed, f.serial = s.qSerial) ∧
    (∀ vp rest, s.videoOpen = true → s.frames = vp :: rest → vp.serial ≠ s.qSerial →
      video_refresh s =
        video_refresh { s with frames := rest, lastFrame := vp, shown := true }) := by
  refine ⟨?_, ?_, fun vp rest hopen hf hs => video_refresh_stale_head s vp rest hopen hf hs⟩
  · by_cases hopen : s.videoOpen = true
    · have he : (video_refresh s).clockUpdates =
          (refresh_video_loop s.ctx s.frames s.acc).2.updates := by
        unfold video_refresh; rw [if_pos hopen]
      rw [he]
      exact loop_updates_serial s.ctx s.frames s.acc
        (by intro u hu; exact absurd hu (by simp [RefreshState.acc]))
    · have he : (video_refresh s).clockUpdates = [] := by
        unfold video_refresh; rw [if_neg hopen]
      rw [he]
      intro u hu
      exact absurd hu (by simp)
  · intro hforce f hf
    by_cases hopen : s.videoOpen = true
    · have he : (video_refresh s).displayed =
          if s.displayDisable = false ∧
              (refresh_video_loop s.ctx s.frames s.acc).2.forceRefresh = true ∧
              s.showModeVideo = true ∧
              (refresh_video_loop s.ctx s.frames s.acc).2.shown = true then
            [(refresh_video_loop s.ctx s.frames s.acc).2.lastFrame]
          else [] := by
        unfold video_refresh; rw [if_pos hopen]
      rw [he] at hf
      by_cases hcond : s.displayDisable = false ∧
          (refresh_video_loop s.ctx s.frames s.acc).2.forceRefresh = true ∧
          s.showModeVideo = true ∧
          (refresh_video_loop s.ctx s.frames s.acc).2.shown = true
      · rw [if_pos hcond] at hf
        have hfe : f = (refresh_video_loop s.ctx s.frames s.acc).2.lastFrame := by
          simpa using hf
        rw [hfe]
        exact loop_display_serial s.ctx s.frames s.acc
          (show s.acc.forceRefresh = false from hforce) hcond.2.1
      · rw [if_neg hcond] at hf
        exact absurd hf (by simp)
    · have he : (video_refresh s).displayed = [] := by
        unfold video_refresh; rw [if_neg hopen]
      rw [he] at hf
      exact absurd hf (by simp)

/-- C5, witness for the amended theorem: consuming the stale head of
`refreshCex` leaves the pass equal to one starting past that frame. -/
theorem C5_serial_discard_amended_witness :
    video_refresh refreshCex =
      video_refresh { refreshCex with frames := [], lastFrame := staleFrame, shown := true } :=
  (C5_serial_discard_amended refreshCex).2.2 staleFrame [] rfl rfl (by decide)

end FastoTV
